import Mathlib

/-!
Verification of `scripts/add_skip_markers.py`.

File contents are modelled as `List Char`.  The script's regex
`rf'func {test_name}\(t \*testing\.T\) {'` is, for a literal test-function
name (letters, digits, underscore), a plain literal substring pattern;
`re.search` finds its leftmost occurrence.  We model that search with
`findSubstr`, which returns the index of the leftmost occurrence of a
literal pattern.  The filesystem is modelled as an association list from
paths to contents, and the batch driver `main` as a fold over the table
of (file, (test, label)) pairs, threading the filesystem and the two
counters.
-/

/-- The one-line function-opening signature the script searches for:
`func <test_name>(t *testing.T) {`. -/
def signatureOf (test_name : List Char) : List Char :=
  "func ".data ++ test_name ++ "(t *testing.T) \x7b".data

/-- The body of the inserted marker line (everything between the two
newlines of `skip_line`): a tab, then `t.Skip("✅ CONVERTED TO HCL: `,
the label, and `")`. -/
def markerBody (hcl_path : List Char) : List Char :=
  '\t' :: "t.Skip(\"✅ CONVERTED TO HCL: ".data ++ hcl_path ++ "\")".data

/-- The full inserted text `'\n\tt.Skip("✅ CONVERTED TO HCL: {hcl_path}")\n'`. -/
def skip_line (hcl_path : List Char) : List Char :=
  '\n' :: markerBody hcl_path ++ ['\n']

/-- Index of the leftmost occurrence of the literal pattern `pat` in `s`
(the behaviour of `re.search` on a pattern free of metacharacters),
`none` when there is no occurrence. -/
def findSubstr (pat : List Char) : List Char → Option Nat
  | [] => if pat.isEmpty then some 0 else none
  | c :: rest =>
    if pat.isPrefixOf (c :: rest) then some 0
    else (findSubstr pat rest).map (fun j => j + 1)

/-- `add_skip_marker`, as a pure function from the (optional) content of
the target file to the new content: `none` in means the file does not
exist; `none` out means the call returned `False` (and did not write),
`some c'` means it returned `True` after writing `c'`.  On success the
marker is spliced in at `match.end()`:
`content[:insert_pos] + skip_line + content[insert_pos:]`. -/
def add_skip_marker (file : Option (List Char)) (test_name hcl_path : List Char) :
    Option (List Char) :=
  match file with
  | none => none
  | some content =>
    match findSubstr (signatureOf test_name) content with
    | none => none
    | some idx =>
      let insert_pos := idx + (signatureOf test_name).length
      some (content.take insert_pos ++ skip_line hcl_path ++ content.drop insert_pos)

/-- Number of occurrences of the literal pattern `pat` in `s`: the number
of positions of `s` at which `pat` matches. -/
def countOccur (pat s : List Char) : Nat :=
  ((List.range (s.length + 1)).filter (fun i => pat.isPrefixOf (s.drop i))).length

-- ### Correctness of `findSubstr`

theorem findSubstr_some_matches {pat s : List Char} {i : Nat}
    (h : findSubstr pat s = some i) : pat <+: s.drop i := by
  induction s generalizing i with
  | nil =>
    unfold findSubstr at h
    by_cases hp : pat.isEmpty
    · simp [hp] at h
      subst h
      simp [List.isEmpty_iff.mp hp]
    · simp [hp] at h
  | cons c rest ih =>
    unfold findSubstr at h
    by_cases hp : pat.isPrefixOf (c :: rest)
    · simp [hp] at h
      subst h
      simpa using List.isPrefixOf_iff_prefix.mp hp
    · simp [hp] at h
      obtain ⟨j, hj, rfl⟩ := h
      simpa using ih hj

theorem findSubstr_some_leftmost {pat s : List Char} {i : Nat}
    (h : findSubstr pat s = some i) : ∀ j < i, ¬ pat <+: s.drop j := by
  induction s generalizing i with
  | nil =>
    unfold findSubstr at h
    by_cases hp : pat.isEmpty
    · simp [hp] at h
      subst h
      omega
    · simp [hp] at h
  | cons c rest ih =>
    unfold findSubstr at h
    by_cases hp : pat.isPrefixOf (c :: rest)
    · simp [hp] at h
      subst h
      omega
    · simp [hp] at h
      obtain ⟨j, hj, rfl⟩ := h
      intro k hk
      match k with
      | 0 =>
        simpa using fun hc => hp (List.isPrefixOf_iff_prefix.mpr hc)
      | k + 1 =>
        simpa using ih hj k (by omega)

theorem findSubstr_complete {pat s : List Char} {i : Nat}
    (h : pat <+: s.drop i) : ∃ j, findSubstr pat s = some j ∧ j ≤ i := by
  induction s generalizing i with
  | nil =>
    simp at h
    refine ⟨0, ?_, Nat.zero_le i⟩
    unfold findSubstr
    simp [h]
  | cons c rest ih =>
    by_cases hp : pat.isPrefixOf (c :: rest)
    · refine ⟨0, ?_, Nat.zero_le i⟩
      unfold findSubstr
      simp [hp]
    · match i with
      | 0 =>
        simp at h
        exact absurd (List.isPrefixOf_iff_prefix.mpr h) hp
      | i + 1 =>
        simp at h
        obtain ⟨j, hj, hji⟩ := ih h
        refine ⟨j + 1, ?_, by omega⟩
        unfold findSubstr
        simp [hp, hj]

theorem findSubstr_none {pat s : List Char}
    (h : findSubstr pat s = none) : ∀ i, ¬ pat <+: s.drop i := by
  intro i hi
  obtain ⟨j, hj, _⟩ := findSubstr_complete hi
  rw [h] at hj
  exact Option.noConfusion hj

theorem findSubstr_append {pre post pat : List Char}
    (hleft : ∀ j < pre.length, ¬ pat <+: (pre ++ pat ++ post).drop j) :
    findSubstr pat (pre ++ pat ++ post) = some pre.length := by
  have hmatch : pat <+: (pre ++ pat ++ post).drop pre.length := by
    rw [List.append_assoc, List.drop_left]
    exact List.prefix_append pat post
  obtain ⟨j, hj, hle⟩ := findSubstr_complete hmatch
  rcases Nat.lt_or_ge j pre.length with hlt | hge
  · exact absurd (findSubstr_some_matches hj) (hleft j hlt)
  · have hej : j = pre.length := Nat.le_antisymm hle hge
    rw [← hej]
    exact hj

/-- Core insertion lemma: when the leftmost occurrence of the signature
starts right after `pre`, the call splices `skip_line` in right after
the signature and changes nothing else. -/
theorem add_skip_marker_insert {pre post n l : List Char}
    (hleft : ∀ j < pre.length, ¬ signatureOf n <+: (pre ++ signatureOf n ++ post).drop j) :
    add_skip_marker (some (pre ++ signatureOf n ++ post)) n l =
      some (pre ++ signatureOf n ++ skip_line l ++ post) := by
  simp only [add_skip_marker, findSubstr_append hleft]
  have htake : (pre ++ signatureOf n ++ post).take (pre.length + (signatureOf n).length) =
      pre ++ signatureOf n := by
    rw [← List.length_append]
    exact List.take_left _ _
  have hdrop : (pre ++ signatureOf n ++ post).drop (pre.length + (signatureOf n).length) =
      post := by
    rw [← List.length_append]
    exact List.drop_left _ _
  rw [htake, hdrop]

theorem countOccur_unique {pat s : List Char} {i j : Nat}
    (h1 : countOccur pat s = 1) (hi : i ≤ s.length) (hj : j ≤ s.length)
    (hpi : pat <+: s.drop i) (hpj : pat <+: s.drop j) : i = j := by
  unfold countOccur at h1
  obtain ⟨a, ha⟩ := List.length_eq_one.mp h1
  have hmi : i ∈ (List.range (s.length + 1)).filter (fun k => pat.isPrefixOf (s.drop k)) := by
    rw [List.mem_filter]
    exact ⟨List.mem_range.mpr (by omega), by simpa using List.isPrefixOf_iff_prefix.mpr hpi⟩
  have hmj : j ∈ (List.range (s.length + 1)).filter (fun k => pat.isPrefixOf (s.drop k)) := by
    rw [List.mem_filter]
    exact ⟨List.mem_range.mpr (by omega), by simpa using List.isPrefixOf_iff_prefix.mpr hpj⟩
  rw [ha] at hmi hmj
  simp at hmi hmj
  omega

-- ### The batch driver

/-- The filesystem: an association list from file paths to contents. -/
abbrev FS := List (List Char × List Char)

def readFile (fs : FS) (p : List Char) : Option (List Char) :=
  match fs with
  | [] => none
  | (q, c) :: rest => if q = p then some c else readFile rest p

def writeFile (fs : FS) (p c : List Char) : FS := (p, c) :: fs

/-- The driver's running state: the filesystem plus the two counters of
`main`. -/
structure RunState where
  fs : FS
  success_count : Nat
  total_count : Nat

/-- One iteration of the driver's inner loop: bump `total_count`, attempt
the insertion, on success write the file back and bump `success_count`;
on failure leave the filesystem untouched and continue. -/
def processPair (st : RunState) (filepath test_name hcl_path : List Char) : RunState :=
  match add_skip_marker (readFile st.fs filepath) test_name hcl_path with
  | some newContent =>
    { fs := writeFile st.fs filepath newContent
      success_count := st.success_count + 1
      total_count := st.total_count + 1 }
  | none =>
    { st with total_count := st.total_count + 1 }

def processFile (st : RunState) (entry : List Char × List (List Char × List Char)) : RunState :=
  entry.2.foldl (fun s pr => processPair s entry.1 pr.1 pr.2) st

/-- `main`'s loop over the whole table, starting from zeroed counters. -/
def runTable (fs : FS) (table : List (List Char × List (List Char × List Char))) : RunState :=
  table.foldl processFile { fs := fs, success_count := 0, total_count := 0 }

/-- The summary line `f"\nSummary: {success_count}/{total_count} tests marked"`
(without the leading prefix). -/
def summaryLine (st : RunState) : String :=
  toString st.success_count ++ "/" ++ toString st.total_count ++ " tests marked"

/-- `main`'s return value, passed to `sys.exit`. -/
def exitCode (st : RunState) : Nat :=
  if st.success_count = st.total_count then 0 else 1

/-- The hard-coded table of converted tests from the script. -/
def CONVERTED_TESTS : List (List Char × List (List Char × List Char)) :=
  [("test/integration/jobs_test.go".data,
    [("TestPruneJobIntegration".data, "test/tftest/jobs/prune_job.tftest.hcl".data),
     ("TestPruneJobWithFilters".data, "test/tftest/jobs/prune_job.tftest.hcl (merged)".data),
     ("TestSyncJobIntegration".data, "test/tftest/jobs/sync_job.tftest.hcl".data),
     ("TestSyncJobWithGroupFilter".data, "test/tftest/jobs/sync_job.tftest.hcl (merged)".data),
     ("TestVerifyJobIntegration".data, "test/tftest/jobs/verify_job.tftest.hcl".data)]),
   ("test/integration/remotes_test.go".data,
    [("TestRemotesIntegration".data, "test/tftest/remotes/remote.tftest.hcl".data),
     ("TestRemotePasswordUpdate".data, "test/tftest/remotes/remote.tftest.hcl (merged)".data),
     ("TestRemoteValidation".data, "removed as redundant".data),
     ("TestRemoteImport".data, "covered by HCL tests".data)]),
   ("test/integration/datasources_test.go".data,
    [("TestDatastoreDataSourceIntegration".data, "test/tftest/datasources/datastore.tftest.hcl".data),
     ("TestSyncJobsDataSourceIntegration".data, "test/tftest/datasources/sync_jobs.tftest.hcl".data),
     ("TestVerifyJobDataSourceIntegration".data, "test/tftest/datasources/verify_job.tftest.hcl".data),
     ("TestVerifyJobsDataSourceIntegration".data, "test/tftest/datasources/verify_jobs.tftest.hcl".data),
     ("TestS3EndpointDataSourceIntegration".data, "test/tftest/datasources/s3_endpoint.tftest.hcl".data),
     ("TestS3EndpointsDataSourceIntegration".data, "test/tftest/datasources/s3_endpoints.tftest.hcl".data),
     ("TestMetricsServerDataSourceIntegration".data, "test/tftest/datasources/metrics_server.tftest.hcl".data),
     ("TestMetricsServersDataSourceIntegration".data, "test/tftest/datasources/metrics_servers.tftest.hcl".data)]),
   ("test/integration/metrics_test.go".data,
    [("TestMetricsServerInfluxDBHTTPIntegration".data, "test/tftest/metrics/influxdb_http.tftest.hcl".data),
     ("TestMetricsServerInfluxDBUDPIntegration".data, "test/tftest/metrics/influxdb_udp.tftest.hcl".data),
     ("TestMetricsServerMTU".data, "test/tftest/metrics/influxdb_udp.tftest.hcl (merged)".data),
     ("TestMetricsServerDisabled".data, "test/tftest/metrics/influxdb_udp.tftest.hcl (merged)".data),
     ("TestMetricsServerTypeChange".data, "covered by other tests".data)]),
   ("test/integration/notifications_test.go".data,
    [("TestSMTPNotificationIntegration".data, "test/tftest/notifications/smtp.tftest.hcl".data),
     ("TestGotifyNotificationIntegration".data, "test/tftest/notifications/endpoints_and_matcher.tftest.hcl".data),
     ("TestSendmailNotificationIntegration".data, "test/tftest/notifications/endpoints_and_matcher.tftest.hcl".data),
     ("TestWebhookNotificationIntegration".data, "test/tftest/notifications/endpoints_and_matcher.tftest.hcl".data),
     ("TestNotificationMatcherIntegration".data, "test/tftest/notifications/endpoints_and_matcher.tftest.hcl".data),
     ("TestNotificationMatcherModes".data, "test/tftest/notifications/endpoints_and_matcher.tftest.hcl (merged)".data),
     ("TestNotificationMatcherWithCalendar".data, "test/tftest/notifications/endpoints_and_matcher.tftest.hcl (merged)".data),
     ("TestNotificationMatcherInvertMatch".data, "test/tftest/notifications/endpoints_and_matcher.tftest.hcl (merged)".data),
     ("TestNotificationEndpointDataSourceIntegration".data, "test/tftest/datasources/notification_endpoint.tftest.hcl".data),
     ("TestNotificationEndpointsDataSourceIntegration".data, "test/tftest/datasources/notification_endpoints.tftest.hcl".data),
     ("TestNotificationMatcherDataSourceIntegration".data, "test/tftest/datasources/notification_matcher.tftest.hcl".data),
     ("TestNotificationMatchersDataSourceIntegration".data, "test/tftest/datasources/notification_matchers.tftest.hcl".data)])]

/-- Prefixes of length at most `a.length` only look at `a`, never past it. -/
theorem prefix_append_indep {sig a : List Char} (h : sig.length ≤ a.length)
    (x : List Char) : (sig <+: a ++ x) ↔ sig <+: a := by
  rw [List.prefix_iff_eq_take, List.prefix_iff_eq_take, List.take_append_of_le_length h]

/-- A position strictly inside `pre` matches the signature in
`pre ++ sig ++ post` independently of `post`: the candidate window lies
entirely within `pre ++ sig`. -/
theorem no_match_before {pre sig : List Char} (post post' : List Char) {j : Nat}
    (hj : j < pre.length)
    (h : ¬ sig <+: (pre ++ sig ++ post).drop j) :
    ¬ sig <+: (pre ++ sig ++ post').drop j := by
  have hle : j ≤ (pre ++ sig).length := by
    simp only [List.length_append]
    omega
  have hlen : sig.length ≤ ((pre ++ sig).drop j).length := by
    simp only [List.length_drop, List.length_append]
    omega
  rw [List.drop_append_of_le_length hle, prefix_append_indep hlen] at h ⊢
  exact h

-- ### Claims

/-- C1: for every file content containing exactly one occurrence of the
one-line signature `func <test identifier>(t *testing.T) {`, the call
succeeds and the result is the original content with exactly the marker
line (containing the label verbatim) spliced in at the character offset
immediately after the matched opening brace; every byte before and after
the insertion point is preserved unchanged. -/
theorem C1_unique_occurrence_insert (pre post n l : List Char)
    (huniq : countOccur (signatureOf n) (pre ++ signatureOf n ++ post) = 1) :
    add_skip_marker (some (pre ++ signatureOf n ++ post)) n l =
      some (pre ++ signatureOf n ++ skip_line l ++ post) := by
  apply add_skip_marker_insert
  intro j hj hpj
  have hmatch : signatureOf n <+: (pre ++ signatureOf n ++ post).drop pre.length := by
    rw [List.append_assoc, List.drop_left]
    exact List.prefix_append _ _
  have hlen : pre.length ≤ (pre ++ signatureOf n ++ post).length := by
    simp only [List.length_append]
    omega
  have heq := countOccur_unique huniq (by omega) hlen hpj hmatch
  omega

theorem C1_witness :
    countOccur (signatureOf "TestFoo".data)
      ("x\n".data ++ signatureOf "TestFoo".data ++ "\n\x7d\n".data) = 1 ∧
    add_skip_marker (some ("x\n".data ++ signatureOf "TestFoo".data ++ "\n\x7d\n".data))
      "TestFoo".data "lbl".data =
      some ("x\n".data ++ signatureOf "TestFoo".data ++ skip_line "lbl".data ++ "\n\x7d\n".data) :=
  ⟨by decide,
   C1_unique_occurrence_insert "x\n".data "\n\x7d\n".data "TestFoo".data "lbl".data (by decide)⟩

/-- C2: the search is a literal one: for a test identifier made of
identifier characters, the call succeeds if and only if the content
contains the exact one-line signature text as a contiguous substring —
so multi-line signatures or different whitespace are never matched. -/
theorem C2_literal_search (c n l : List Char)
    (_hident : ∀ ch ∈ n, ch.isAlphanum = true ∨ ch = '_') :
    (∃ c', add_skip_marker (some c) n l = some c') ↔
      ∃ pre post, c = pre ++ signatureOf n ++ post := by
  constructor
  · rintro ⟨c', hc'⟩
    rcases hfind : findSubstr (signatureOf n) c with _ | idx
    · simp [add_skip_marker, hfind] at hc'
    · obtain ⟨rest, hrest⟩ := findSubstr_some_matches hfind
      refine ⟨c.take idx, rest, ?_⟩
      rw [List.append_assoc, hrest, List.take_append_drop]
  · rintro ⟨pre, post, rfl⟩
    have hmatch : signatureOf n <+: (pre ++ signatureOf n ++ post).drop pre.length := by
      rw [List.append_assoc, List.drop_left]
      exact List.prefix_append _ _
    obtain ⟨j, hj, _⟩ := findSubstr_complete hmatch
    refine ⟨(pre ++ signatureOf n ++ post).take (j + (signatureOf n).length) ++
      skip_line l ++ (pre ++ signatureOf n ++ post).drop (j + (signatureOf n).length), ?_⟩
    simp only [add_skip_marker, hj]

theorem C2_witness :
    (∀ ch ∈ ("TestFoo".data), ch.isAlphanum = true ∨ ch = '_') ∧
    ((∃ c', add_skip_marker (some ("yy".data ++ signatureOf "TestFoo".data)) "TestFoo".data
        "lbl".data = some c') ↔
      ∃ pre post, "yy".data ++ signatureOf "TestFoo".data = pre ++ signatureOf "TestFoo".data ++ post) :=
  ⟨by decide, C2_literal_search ("yy".data ++ signatureOf "TestFoo".data) "TestFoo".data
    "lbl".data (by decide)⟩

/-- C3: the operation is not idempotent: when the leftmost occurrence of
the signature starts after `pre`, a first call succeeds and inserts one
marker line, and repeating the same call on the result re-matches the
same signature, succeeds again, and inserts a second marker line. -/
theorem C3_not_idempotent (pre post n l : List Char)
    (hleft : ∀ j < pre.length, ¬ signatureOf n <+: (pre ++ signatureOf n ++ post).drop j) :
    add_skip_marker (some (pre ++ signatureOf n ++ post)) n l =
      some (pre ++ signatureOf n ++ skip_line l ++ post) ∧
    add_skip_marker (some (pre ++ signatureOf n ++ skip_line l ++ post)) n l =
      some (pre ++ signatureOf n ++ skip_line l ++ skip_line l ++ post) := by
  refine ⟨add_skip_marker_insert hleft, ?_⟩
  have hleft' : ∀ j < pre.length,
      ¬ signatureOf n <+: (pre ++ signatureOf n ++ (skip_line l ++ post)).drop j :=
    fun j hj => no_match_before post (skip_line l ++ post) hj (hleft j hj)
  have h2 := add_skip_marker_insert (l := l) hleft'
  simpa [List.append_assoc] using h2

theorem C3_witness :
    add_skip_marker (some ("x\n".data ++ signatureOf "TestT".data ++ "\n\x7d\n".data))
      "TestT".data "p.hcl".data =
      some ("x\n".data ++ signatureOf "TestT".data ++ skip_line "p.hcl".data ++ "\n\x7d\n".data) ∧
    add_skip_marker
      (some ("x\n".data ++ signatureOf "TestT".data ++ skip_line "p.hcl".data ++ "\n\x7d\n".data))
      "TestT".data "p.hcl".data =
      some ("x\n".data ++ signatureOf "TestT".data ++ skip_line "p.hcl".data ++
        skip_line "p.hcl".data ++ "\n\x7d\n".data) :=
  C3_not_idempotent "x\n".data "\n\x7d\n".data "TestT".data "p.hcl".data (by decide)

/-- C4: when the file exists but its content (possibly empty) contains no
occurrence of the signature, the call fails and the driver step leaves
the filesystem byte-for-byte unchanged, only bumping the attempt counter. -/
theorem C4_no_match_no_write (fs : FS) (p c n l : List Char) (s t : Nat)
    (hread : readFile fs p = some c)
    (hnomatch : ∀ i, ¬ signatureOf n <+: c.drop i) :
    add_skip_marker (some c) n l = none ∧
    processPair ⟨fs, s, t⟩ p n l = ⟨fs, s, t + 1⟩ := by
  have hfind : findSubstr (signatureOf n) c = none := by
    rcases h : findSubstr (signatureOf n) c with _ | i
    · rfl
    · exact absurd (findSubstr_some_matches h) (hnomatch i)
  have hadd : add_skip_marker (some c) n l = none := by
    simp [add_skip_marker, hfind]
  exact ⟨hadd, by simp [processPair, hread, hadd]⟩

theorem C4_witness :
    readFile [("a_test.go".data, [])] "a_test.go".data = some [] ∧
    add_skip_marker (some []) "TestFoo".data "lbl".data = none ∧
    processPair ⟨[("a_test.go".data, [])], 4, 7⟩ "a_test.go".data "TestFoo".data "lbl".data =
      ⟨[("a_test.go".data, [])], 4, 8⟩ :=
  ⟨by decide,
   C4_no_match_no_write [("a_test.go".data, [])] "a_test.go".data [] "TestFoo".data
     "lbl".data 4 7 (by decide)
     (fun i => by
       rw [List.drop_nil]
       simp [signatureOf])⟩

/-- C5: when the file does not exist, the call fails, no file is created
(the filesystem is unchanged), and the driver step just tallies the
failed attempt and moves on. -/
theorem C5_missing_file (fs : FS) (p n l : List Char) (s t : Nat)
    (hread : readFile fs p = none) :
    add_skip_marker (readFile fs p) n l = none ∧
    processPair ⟨fs, s, t⟩ p n l = ⟨fs, s, t + 1⟩ := by
  rw [hread]
  exact ⟨rfl, by simp [processPair, hread, add_skip_marker]⟩

theorem C5_witness :
    add_skip_marker (readFile [] "missing_test.go".data) "TestFoo".data "lbl".data = none ∧
    processPair ⟨[], 0, 3⟩ "missing_test.go".data "TestFoo".data "lbl".data = ⟨[], 0, 4⟩ :=
  C5_missing_file [] "missing_test.go".data "TestFoo".data "lbl".data 0 3 (by decide)

/-- C6: `main` returns 0 exactly when the success counter equals the
attempt counter, returns 1 exactly when they differ, and never returns
any other value; the exit code does not distinguish failure kinds. -/
theorem C6_exit_code (fs : FS) (table : List (List Char × List (List Char × List Char))) :
    (exitCode (runTable fs table) = 0 ∨ exitCode (runTable fs table) = 1) ∧
    (exitCode (runTable fs table) = 0 ↔
      (runTable fs table).success_count = (runTable fs table).total_count) ∧
    (exitCode (runTable fs table) = 1 ↔
      ¬ (runTable fs table).success_count = (runTable fs table).total_count) := by
  unfold exitCode
  by_cases h : (runTable fs table).success_count = (runTable fs table).total_count <;>
    simp [h]

/-- C7: on a file starting with `func TestPruneJobIntegration(t *testing.T) {`
followed by a body, the call with identifier `TestPruneJobIntegration` and
label `test/tftest/jobs/prune_job.tftest.hcl` yields exactly the line
`\tt.Skip("✅ CONVERTED TO HCL: test/tftest/jobs/prune_job.tftest.hcl")`
directly below the matched line, and the original body follows unchanged. -/
theorem C7_prune_job_example :
    add_skip_marker
      (some "func TestPruneJobIntegration(t *testing.T) \x7b\n\tclient := newTestClient(t)\n\x7d\n".data)
      "TestPruneJobIntegration".data "test/tftest/jobs/prune_job.tftest.hcl".data =
    some ("func TestPruneJobIntegration(t *testing.T) \x7b\n\tt.Skip(\"✅ CONVERTED TO HCL: test/tftest/jobs/prune_job.tftest.hcl\")\n\n\tclient := newTestClient(t)\n\x7d\n".data) := by
  decide

set_option maxRecDepth 100000 in
/-- C8: over a table with one fully matching file (3 of 3 pairs succeed)
and one absent file (0 of 2 pairs succeed), the driver's summary line is
`3/5 tests marked` and the exit code is 1. -/
theorem C8_three_of_five :
    summaryLine (runTable
      [("a_test.go".data,
        signatureOf "TestA".data ++ "\n\x7d\n".data ++
        (signatureOf "TestB".data ++ "\n\x7d\n".data) ++
        (signatureOf "TestC".data ++ "\n\x7d\n".data))]
      [("a_test.go".data,
        [("TestA".data, "l1".data), ("TestB".data, "l2".data), ("TestC".data, "l3".data)]),
       ("missing_test.go".data,
        [("TestD".data, "l4".data), ("TestE".data, "l5".data)])]) = "3/5 tests marked" ∧
    exitCode (runTable
      [("a_test.go".data,
        signatureOf "TestA".data ++ "\n\x7d\n".data ++
        (signatureOf "TestB".data ++ "\n\x7d\n".data) ++
        (signatureOf "TestC".data ++ "\n\x7d\n".data))]
      [("a_test.go".data,
        [("TestA".data, "l1".data), ("TestB".data, "l2".data), ("TestC".data, "l3".data)]),
       ("missing_test.go".data,
        [("TestD".data, "l4".data), ("TestE".data, "l5".data)])]) = 1 := by
  constructor
  · rfl
  · rfl

/-- C9: when the signature occurs more than once, a single call inserts
exactly one marker line, right after the first (leftmost) occurrence,
and the later occurrences are left untouched. -/
theorem C9_first_occurrence_only (pre mid post n l : List Char)
    (hleft : ∀ j < pre.length,
      ¬ signatureOf n <+: (pre ++ signatureOf n ++ (mid ++ signatureOf n ++ post)).drop j) :
    add_skip_marker (some (pre ++ signatureOf n ++ (mid ++ signatureOf n ++ post))) n l =
      some (pre ++ signatureOf n ++ skip_line l ++ (mid ++ signatureOf n ++ post)) :=
  add_skip_marker_insert hleft

theorem C9_witness :
    add_skip_marker
      (some ("p\n".data ++ signatureOf "TestT".data ++
        ("\n\x7d\n".data ++ signatureOf "TestT".data ++ "\n\x7d\n".data)))
      "TestT".data "lbl".data =
      some ("p\n".data ++ signatureOf "TestT".data ++ skip_line "lbl".data ++
        ("\n\x7d\n".data ++ signatureOf "TestT".data ++ "\n\x7d\n".data)) :=
  C9_first_occurrence_only "p\n".data "\n\x7d\n".data "\n\x7d\n".data "TestT".data
    "lbl".data (by decide)

/-- C10: when the matched opening brace is immediately followed by a
newline, the result has an empty line between the inserted marker line
and the first original body line: the inserted text starts and ends with
a newline and the original newline after the brace is preserved, giving
two consecutive newlines after the marker body. -/
theorem C10_blank_line_after_marker (c n l rest : List Char) (i : Nat)
    (hfind : findSubstr (signatureOf n) c = some i)
    (hnl : c.drop (i + (signatureOf n).length) = '\n' :: rest) :
    add_skip_marker (some c) n l =
      some (c.take (i + (signatureOf n).length) ++
        ('\n' :: markerBody l) ++ ('\n' :: '\n' :: rest)) := by
  simp only [add_skip_marker, hfind, hnl, skip_line]
  simp [List.append_assoc]

theorem C10_witness :
    add_skip_marker (some (signatureOf "TestT".data ++ "\n\tx := 1\n\x7d\n".data))
      "TestT".data "lbl".data =
      some ((signatureOf "TestT".data ++ "\n\tx := 1\n\x7d\n".data).take
          (0 + (signatureOf "TestT".data).length) ++
        ('\n' :: markerBody "lbl".data) ++ ('\n' :: '\n' :: "\tx := 1\n\x7d\n".data)) :=
  C10_blank_line_after_marker (signatureOf "TestT".data ++ "\n\tx := 1\n\x7d\n".data)
    "TestT".data "lbl".data "\tx := 1\n\x7d\n".data 0 (by decide) (by decide)
